import Mathlib

/-!
Verification of the robot-simulator firmware (exhibition-robot simulator).

This file gives a shallow embedding, over the rationals, of the sensor
pipeline and the firmware behaviour engines of the repository:

- the ultrasonic sensor model (robot.js, UltrasonicSensor.ping) and the
  ray-casting distance query of the ToF world variant (World.castRay);
- the centimetre normalisation path of the territory firmware
  (firmware.js, normaliseCmFromMeters) and its scan classifier
  (applyAngleMedianFilter, classifyTargetFromScan) and drive helper;
- the escape choreography of the territory firmware (PANIC and RECOVER
  states of updateBehavior) together with the LINE_AVOID preemption;
- the ring-buffer threat classifier of the croc firmware
  (scanStats, updateThreatClassifier) and the state transitions of its
  updateBehavior;
- the simple firmware variant whose trigger is a bare distance
  comparison (updateBehavior of the SLEEP/AGGRESSION variant);
- the servo model (robot.js, Servo).

JavaScript numbers are modelled by rationals; the JS value Infinity
(used by the sensor for a missed echo) is modelled by the value none of
an Option type, and every comparison is translated with the JS
convention that Infinity compares greater than every finite number.
-/

namespace RobotSim

/-! ### Configuration constants (config.js CFG and firmware tables) -/

/-- CFG.ULTRASONIC_RANGE, metres. -/
def ULTRASONIC_RANGE : ℚ := 3

/-- CFG.ULTRASONIC_MIN_CM. -/
def ULTRASONIC_MIN_CM : ℚ := 8

/-- CFG.ULTRASONIC_MAX_CM. -/
def ULTRASONIC_MAX_CM : ℚ := 250

/-- CFG.ULTRASONIC_NO_ECHO_CM, the sentinel stored by the territory
firmware when the sensor reported no echo. -/
def ULTRASONIC_NO_ECHO_CM : ℚ := 300

/-- CFG.WAKE_DIST_FROM_BOUNDARY, metres. -/
def WAKE_DIST_FROM_BOUNDARY : ℚ := 3/2

/-- CFG.SERVO_LIMIT_DEG. -/
def SERVO_LIMIT_DEG : ℚ := 60

/-- CFG.SERVO_MAX_SPEED_DPS. -/
def SERVO_MAX_SPEED_DPS : ℚ := 600

/-- CFG.TOF_MAX_MM of the ToF world variant. -/
def TOF_MAX_MM : ℚ := 2000

/-- CFG.SAFE_CYCLE_PERIOD, seconds. -/
def SAFE_CYCLE_PERIOD : ℚ := 180

/-- CFG.AGGRESSION_DURATION, seconds. -/
def AGGRESSION_DURATION : ℚ := 30

/-- CFG.GUARD_DURATION, seconds. -/
def GUARD_DURATION : ℚ := 30

/-- CFG.CALM_WAIT, seconds. -/
def CALM_WAIT : ℚ := 60

/-- CFG.INTER_CLUTCH_DELAY, seconds. -/
def INTER_CLUTCH_DELAY : ℚ := 3

/-- CFG.CLUTCH_COUNT. -/
def CLUTCH_COUNT : ℕ := 3

/-- CFG.EGGS_PER_CLUTCH. -/
def EGGS_PER_CLUTCH : ℕ := 10

/-! ### Shared numeric helpers -/

/-- The clampLocal helper of firmware.js: v below lo gives lo, v above hi
gives hi, otherwise v. -/
def clampLocal (v lo hi : ℚ) : ℚ := if v < lo then lo else if v > hi then hi else v

/-- The JS Math.max on rationals, in branch form. -/
def jsMax (a b : ℚ) : ℚ := if a < b then b else a

/-- The JS Math.min on rationals, in branch form. -/
def jsMin (a b : ℚ) : ℚ := if b < a then b else a

/-- The global clamp helper of the repository: Math.max(lo, Math.min(hi, v)). -/
def clamp (v lo hi : ℚ) : ℚ := jsMax lo (jsMin v hi)

/-- The median3 helper of firmware.js, written as the same three-step
compare-and-swap network. -/
def median3 (a b c : ℚ) : ℚ :=
  let p := if a > b then (b, a) else (a, b)
  let q := if p.2 > c then (c, p.2) else (p.2, c)
  let r := if p.1 > q.1 then (q.1, p.1) else (p.1, q.1)
  r.2

/-- The mean2 helper of firmware.js. -/
def mean2 (a b : ℚ) : ℚ := (a + b) * (1/2)

/-- A sensor distance: none models the JS value Infinity (no echo), some d
models a finite reading of d metres. -/
abbrev Dist := Option ℚ

/-- The JS comparison a < b on distances where none stands for Infinity:
Infinity is larger than every finite value and not smaller than itself. -/
def distLt : Dist → Dist → Bool
  | some a, some b => a < b
  | some _, none => true
  | none, _ => false

/-- One comparison step of the running-minimum loops of the sensor code:
replace the current best by t exactly when t < best in the JS order. -/
def optMinD (best t : Dist) : Dist := if distLt t best then t else best

/-! ### firmware.js normaliseCmFromMeters (territory variant) -/

/-- The normaliseCmFromMeters helper of firmware.js: a non-finite metre
reading (modelled by none) becomes the no-echo sentinel, a finite reading
is converted to centimetres and clamped into the configured ultrasonic
range. -/
def normaliseCmFromMeters (m : Dist) : ℚ :=
  match m with
  | none => ULTRASONIC_NO_ECHO_CM
  | some v => clampLocal (v * 100) ULTRASONIC_MIN_CM ULTRASONIC_MAX_CM

/-! ### robot.js UltrasonicSensor.ping

The ping method aims five rays across the sensor cone, intersects each
one with the visitor legs circle and with every obstacle box, keeps a
running minimum of all intersection distances (starting from Infinity),
and finally stores max(0, best + noise) when the best hit is within
ULTRASONIC_RANGE and Infinity otherwise.  The trigonometric ray
construction and the concrete intersection routines (rayIntersectCircle
and rayIntersectAABB, defined by the rendering layer) are abstracted as
oracle functions from the ray offset to an intersection distance. -/

/-- The five ray offsets of UltrasonicSensor.ping, spread across the
field of view of half-width halfFov. -/
def rayOffsets (halfFov : ℚ) : List ℚ :=
  [-halfFov, -halfFov * (1/2), 0, halfFov * (1/2), halfFov]

/-- The body of the offsets loop of UltrasonicSensor.ping: fold the leg
intersection and every obstacle intersection of one ray into the running
minimum. -/
def rayStep {α : Type} (legT : ℚ → Dist) (obsT : α → ℚ → Dist) (obstacles : List α)
    (best : Dist) (off : ℚ) : Dist :=
  obstacles.foldl (fun b o => optMinD b (obsT o off)) (optMinD best (legT off))

/-- The full double loop of UltrasonicSensor.ping: the minimum over all
rays and all targets, starting from Infinity. -/
def pingBest {α : Type} (legT : ℚ → Dist) (obsT : α → ℚ → Dist) (obstacles : List α)
    (offsets : List ℚ) : Dist :=
  offsets.foldl (rayStep legT obsT obstacles) none

/-- The final reporting step of UltrasonicSensor.ping: a best hit within
range is reported as max(0, best + noise); otherwise the stored value is
Infinity (none).  The JS comparison Infinity <= range is false, hence the
none case. -/
def pingReport (best : Dist) (noise : ℚ) : Dist :=
  match best with
  | none => none
  | some b => if b ≤ ULTRASONIC_RANGE then some (jsMax 0 (b + noise)) else none

/-- Every intersection candidate inspected by one ping, in the traversal
order of the nested loops of UltrasonicSensor.ping. -/
def coneCandidates {α : Type} (legT : ℚ → Dist) (obsT : α → ℚ → Dist) (obstacles : List α)
    (offsets : List ℚ) : List Dist :=
  offsets.flatMap (fun off => legT off :: obstacles.map (fun o => obsT o off))

/-- Modelled from the spec: the minimum distance among all hits of the
cone (nearest-surface-in-cone semantics), as the running minimum of the
list of all candidate intersection distances, no hit counting as
Infinity. -/
def distMin (l : List Dist) : Dist := l.foldl optMinD none

/-! ### World.castRay (ToF world variant)

castRay starts from the saturation distance TOF_MAX_MM/1000 and lowers it
by every wall, leg, pinned-leg, bag and pedestal intersection that is a
hit (not null) and closer than the current nearest; hidden bags are
skipped.  The per-shape intersection routines raySegment and rayCircle
return a distance or null, modelled by Option. -/

/-- One category loop of World.castRay: fold a list of intersection
results (none models a null result) into the running nearest distance. -/
def castRayFold (hits : List (Option ℚ)) (nearest : ℚ) : ℚ :=
  hits.foldl (fun near t => match t with
    | none => near
    | some v => if v < near then v else near) nearest

/-- The bag loop of World.castRay: identical to the other categories but
skipping bags whose hidden flag is set. -/
def castRayBags (bags : List (Bool × Option ℚ)) (nearest : ℚ) : ℚ :=
  bags.foldl (fun near bt =>
    if bt.1 then near
    else match bt.2 with
      | none => near
      | some v => if v < near then v else near) nearest

/-- World.castRay, parameterised by the intersection results of its five
target categories: walls, cursor legs, pinned legs, bags (with their
hidden flag) and pedestals, folded in the order of the source. -/
def castRay (walls legs pinned : List (Option ℚ)) (bags : List (Bool × Option ℚ))
    (pedestals : List (Option ℚ)) : ℚ :=
  castRayFold pedestals
    (castRayBags bags
      (castRayFold pinned
        (castRayFold legs
          (castRayFold walls (TOF_MAX_MM / 1000)))))

/-! ### firmware.js drive helper (territory variant) -/

/-- The drive helper of the territory firmware: pwmLeft = clampLocal of
forward - turn into the unit interval, pwmRight likewise with
forward + turn. -/
def drive (forward turn : ℚ) : ℚ × ℚ :=
  (clampLocal (forward - turn) (-1) 1, clampLocal (forward + turn) (-1) 1)

/-! ### robot.js Servo

The servo stores its angle and target in radians; every stored radian
value is the corresponding degree value times pi/180, and that positive
factor commutes with every clamp and comparison of the code, so the model
keeps all angles in degrees (one model unit = pi/180 radians). -/

/-- The servo state of robot.js: current angle, target angle (both in the
degree model unit) and the time since the last motion. -/
structure ServoSt where
  angle : ℚ
  target : ℚ
  timeSinceMove : ℚ
deriving Repr, DecidableEq

/-- The servo constructor: angle 0, target 0, timeSinceMove 999. -/
def servoInit : ServoSt := ⟨0, 0, 999⟩

/-- Servo.setTargetDeg: the requested degree angle is clamped to the
mechanical limit before being stored. -/
def setTargetDeg (s : ServoSt) (deg : ℚ) : ServoSt :=
  { s with target := clamp deg (-SERVO_LIMIT_DEG) SERVO_LIMIT_DEG }

/-- Servo.setTargetRad: the requested angle (already in the model unit)
is clamped to the mechanical limit before being stored. -/
def setTargetRad (s : ServoSt) (x : ℚ) : ServoSt :=
  { s with target := clamp x (-SERVO_LIMIT_DEG) SERVO_LIMIT_DEG }

/-- Servo.update: move the angle toward the target by at most the maximum
speed times dt, and refresh the time-since-move bookkeeping.  The source
compares the motion against the literal 1e-6 in radians; the model keeps
that literal in its degree unit, which only shifts the (unverified)
settling bookkeeping, not the clamping behaviour. -/
def servoUpdate (s : ServoSt) (dt : ℚ) : ServoSt :=
  let maxSpeed := SERVO_MAX_SPEED_DPS
  let step := clamp (s.target - s.angle) (-(maxSpeed * dt)) (maxSpeed * dt)
  let angle := s.angle + step
  { s with angle := angle,
           timeSinceMove := if |angle - s.angle| > 1/1000000 then 0 else s.timeSinceMove + dt }

/-- One call to the servo interface: a setTargetDeg call, a setTargetRad
call, or an update tick. -/
inductive ServoOp
  | setDeg (deg : ℚ)
  | setRad (x : ℚ)
  | upd (dt : ℚ)
deriving Repr, DecidableEq

/-- Run a sequence of servo calls from a given state. -/
def servoRun (s : ServoSt) : List ServoOp → ServoSt
  | [] => s
  | ServoOp.setDeg d :: rest => servoRun (setTargetDeg s d) rest
  | ServoOp.setRad x :: rest => servoRun (setTargetRad s x) rest
  | ServoOp.upd dt :: rest => servoRun (servoUpdate s dt) rest

/-! ### firmware.js scan classifier (territory variant)

The territory firmware keeps a scan record with the fixed angle table
-60, -50, ..., 60, the raw per-angle distances in centimetres, the
median-filtered copy, the classification outputs and two presence
histories.  The following embeds the scan-completion path of
updateFullScan: apply the angle median filter to the raw buffer and run
classifyTargetFromScan on it. -/

/-- What the robot currently thinks it sees (the percept debug field). -/
inductive Percept
  | empty
  | scanning
  | legs
  | wall
deriving Repr, DecidableEq

/-- BEHAV.D_DETECT of the territory firmware, centimetres. -/
def D_DETECT : ℚ := 100

/-- BEHAV.FLAT_N of the territory firmware. -/
def FLAT_N : ℕ := 4

/-- BEHAV.FLAT_T_CM of the territory firmware. -/
def FLAT_T_CM : ℚ := 15

/-- The scanAnglesDeg table of the territory firmware: -60 to 60 in steps
of 10 degrees. -/
def scanAnglesDeg : List ℚ := (List.range 13).map (fun i => -60 + 10 * (i : ℚ))

/-- The scan record of the territory firmware (the fields that the
full-scan classification path reads or writes). -/
structure ScanV1 where
  angles : List ℚ
  raw : List ℚ
  filtered : Option (List ℚ)
  targetCm : ℚ
  targetThetaDeg : ℚ
  targetIsWall : Bool
  fullHist : List Bool
  fullHistIdx : ℕ
  frontCm : ℚ
  frontHist : List Bool
  frontHistIdx : ℕ
deriving Repr, DecidableEq

/-- The applyAngleMedianFilter helper: every output entry is the median
of the entry and its clamped-index neighbours. -/
def applyAngleMedianFilter (raw : List ℚ) : List ℚ :=
  (List.range raw.length).map (fun i =>
    median3 (raw.getD (i - 1) 0) (raw.getD i 0) (raw.getD (min (raw.length - 1) (i + 1)) 0))

/-- The isFlatSegment helper: over the len entries starting at startIdx,
the spread of minimum and maximum (accumulated exactly as the source,
starting from Infinity and minus Infinity, both modelled by none) must be
below FLAT_T_CM and the mean below 200. -/
def isFlatSegment (d : List ℚ) (startIdx len : ℕ) : Bool :=
  let acc := (List.range len).foldl
    (fun (acc : Option ℚ × Option ℚ × ℚ) i =>
      let v := d.getD (startIdx + i) 0
      (some (match acc.1 with | none => v | some m => jsMin m v),
       some (match acc.2.1 with | none => v | some m => jsMax m v),
       acc.2.2 + v))
    (none, none, 0)
  let mean := acc.2.2 / (len : ℚ)
  decide ((acc.2.1.getD 0 - acc.1.getD 0) < FLAT_T_CM ∧ mean < 200)

/-- The argmin loop of classifyTargetFromScan: over all indices whose
angle lies in [-40, 40], keep the first strictly smaller filtered
distance; none models the initial bestIdx -1 / bestD Infinity pair. -/
def scanArgmin (angles d : List ℚ) : Option (ℕ × ℚ) :=
  (List.range angles.length).foldl
    (fun best i =>
      let a := angles.getD i 0
      if a < -40 ∨ a > 40 then best
      else
        let di := d.getD i 0
        match best with
        | none => some (i, di)
        | some (bi, bd) => if di < bd then some (i, di) else some (bi, bd))
    none

/-- The flat-segment search of classifyTargetFromScan: some FLAT_N-wide
window containing the best index is flat.  The source loops s from
max(0, bestIdx - (FLAT_N - 1)) to min(length - FLAT_N, bestIdx); the
bounds are computed in the integers because the upper bound is negative
on short buffers. -/
def wallAroundBest (d : List ℚ) (bi : ℕ) : Bool :=
  let startMin : ℤ := max 0 ((bi : ℤ) - ((FLAT_N : ℤ) - 1))
  let startMax : ℤ := min ((d.length : ℤ) - (FLAT_N : ℤ)) (bi : ℤ)
  (List.range (startMax + 1 - startMin).toNat).any (fun k =>
    let s : ℤ := startMin + k
    isFlatSegment d s.toNat FLAT_N && decide (s ≤ (bi : ℤ)) && decide ((bi : ℤ) < s + FLAT_N))

/-- The classifyTargetFromScan method of the territory firmware: find the
closest filtered sample within [-40, 40], decide whether a flat segment
around it makes it wall-like, refresh the full-scan presence history and
set the percept.  The returned percept is none when the method bails out
on a missing filtered buffer (the percept field is then left as it was). -/
def classifyTargetFromScan (scan : ScanV1) : ScanV1 × Option Percept :=
  match scan.filtered with
  | none => (scan, none)
  | some d =>
    let best := scanArgmin scan.angles d
    let targetCm := match best with
      | none => ULTRASONIC_NO_ECHO_CM
      | some bd => bd.2
    let targetTheta := match best with
      | none => 0
      | some bd => scan.angles.getD bd.1 0
    let isWall := match best with
      | none => false
      | some bd => wallAroundBest d bd.1
    let present := decide (targetCm < D_DETECT) && !isWall
    let percept := if targetCm ≥ D_DETECT then Percept.empty
                   else if isWall then Percept.wall else Percept.legs
    ({ scan with targetCm := targetCm,
                 targetThetaDeg := targetTheta,
                 targetIsWall := isWall,
                 fullHist := scan.fullHist.set scan.fullHistIdx present,
                 fullHistIdx := (scan.fullHistIdx + 1) % scan.fullHist.length },
     some percept)

/-- The scan-completion branch of updateFullScan: set the filtered buffer
to the median-filtered raw buffer, then classify. -/
def finishFullScan (scan : ScanV1) : ScanV1 × Option Percept :=
  classifyTargetFromScan { scan with filtered := some (applyAngleMedianFilter scan.raw) }

/-! ### firmware.js threat classifier (croc ring-buffer variant)

The croc firmware mounts a fixed ultrasonic sensor and distinguishes legs
from walls by the dispersion of a ring buffer of distance readings taken
while the body oscillates.  The readings are metres; Infinity (no echo)
is modelled by none. -/

/-- THREAT_CFG.NEAR_DIST, metres. -/
def NEAR_DIST : ℚ := WAKE_DIST_FROM_BOUNDARY

/-- THREAT_CFG.COOLDOWN_DUR, seconds. -/
def COOLDOWN_DUR : ℚ := 3/2

/-- THREAT_CFG.RING_N. -/
def RING_N : ℕ := 14

/-- THREAT_CFG.SAMPLE_DT: one over CFG.ULTRASONIC_HZ. -/
def SAMPLE_DT : ℚ := 1/15

/-- THREAT_CFG.LEGS_DROPOUT. -/
def LEGS_DROPOUT : ℚ := 3/10

/-- THREAT_CFG.LEGS_SPREAD, metres. -/
def LEGS_SPREAD : ℚ := 1/4

/-- The near test used throughout the croc firmware: the reading is
finite and below NEAR_DIST.  A dropout (none, the JS Infinity) is never
near because Number.isFinite rejects it. -/
def nearB (dist : Dist) : Bool :=
  match dist with
  | none => false
  | some d => d < NEAR_DIST

/-- The threat-classifier state of the croc firmware. -/
structure ThreatSt where
  cooldown : ℚ
  sampleTimer : ℚ
  ring : List Dist
  ringIdx : ℕ
  ringCount : ℕ
deriving Repr, DecidableEq

/-- The initial threat state: zero timers and a ring of RING_N entries
filled with Infinity. -/
def threatInit : ThreatSt :=
  ⟨0, 0, List.replicate RING_N none, 0, 0⟩

/-- The pushSample helper: store the reading at the write index, advance
it modulo RING_N and saturate the count at RING_N. -/
def pushSample (t : ThreatSt) (dist : Dist) : ThreatSt :=
  { t with ring := t.ring.set t.ringIdx dist,
           ringIdx := (t.ringIdx + 1) % RING_N,
           ringCount := min RING_N (t.ringCount + 1) }

/-- The statistics scanStats computes over the last ringCount samples. -/
structure RingStats where
  dropoutRate : ℚ
  spread : ℚ
deriving Repr, DecidableEq

/-- The accumulator of the scanStats loop: finite count, Infinity count,
running minimum (none models the initial Infinity) and running maximum
(initialised to 0 as in the source). -/
structure StatsAcc where
  finN : ℕ
  infN : ℕ
  minD : Option ℚ
  maxD : ℚ
deriving Repr, DecidableEq

/-- The statistics loop of scanStats: walk the last n entries of the
ring (indices taken modulo RING_N exactly as the source computes them)
and accumulate finite count, Infinity count, minimum and maximum. -/
def statsFold (ring : List Dist) (ringIdx n : ℕ) : StatsAcc :=
  (List.range n).foldl
    (fun (acc : StatsAcc) i =>
      let idx := (((ringIdx : ℤ) - (n : ℤ) + (i : ℤ) + (RING_N : ℤ)) % (RING_N : ℤ)).toNat
      match ring.getD idx none with
      | some v =>
        { acc with finN := acc.finN + 1,
                   minD := some (match acc.minD with
                     | none => v
                     | some m => if v < m then v else m),
                   maxD := if v > acc.maxD then v else acc.maxD }
      | none => { acc with infN := acc.infN + 1 })
    ⟨0, 0, none, 0⟩

/-- The scanStats method: with fewer than 4 samples return null;
otherwise report the dropout rate and the spread of the finite readings
(0 when fewer than two are finite) over the last ringCount entries. -/
def scanStats (t : ThreatSt) : Option RingStats :=
  let n := t.ringCount
  if n < 4 then none
  else
    let acc := statsFold t.ring t.ringIdx n
    some { dropoutRate := (acc.infN : ℚ) / (n : ℚ),
           spread := if acc.finN ≥ 2 then acc.maxD - acc.minD.getD 0 else 0 }

/-- The decision record updateThreatClassifier returns to updateBehavior. -/
structure ThreatDecision where
  threat : Bool
  enterAggression : Bool
deriving Repr, DecidableEq

/-- The timers-and-sampling prefix of updateThreatClassifier: decrement a
running cooldown (never below zero), accumulate the sample timer, and on
a sensor-rate boundary either push the reading (when near) or clear the
ring buffer (when the zone is empty). -/
def sampleStep (t : ThreatSt) (dist : Dist) (dt : ℚ) : ThreatSt :=
  let t := if t.cooldown > 0 then { t with cooldown := jsMax 0 (t.cooldown - dt) } else t
  let t := { t with sampleTimer := t.sampleTimer + dt }
  if t.sampleTimer ≥ SAMPLE_DT then
    let t := { t with sampleTimer := t.sampleTimer - SAMPLE_DT }
    if nearB dist then pushSample t dist
    else { t with ringCount := 0, ringIdx := 0 }
  else t

/-- The behaviour states of the croc firmware. -/
inductive CrocState
  | SLEEP
  | IDLE_SAFE
  | LAYING
  | AGGRESSION
  | RETREATING
  | GUARD
  | CALMING
deriving Repr, DecidableEq

/-- The updateThreatClassifier method of the croc ring-buffer firmware:
after the sampling prefix, an active aggression keeps the legs percept; a
far (or dropout) reading is an empty percept with no trigger; an armed
cooldown shows the wall percept with no trigger; a starved ring buffer
(null stats) keeps the scanning percept with no trigger; the leg
signature (high dropout rate or large spread) triggers aggression and
resets the ring; anything else is the wall signature, which arms the
cooldown and resets the ring. -/
def updateThreatClassifier (state : CrocState) (t0 : ThreatSt) (dist : Dist) (dt : ℚ) :
    ThreatSt × ThreatDecision × Percept :=
  let t := sampleStep t0 dist dt
  if state = CrocState.AGGRESSION then (t, ⟨true, false⟩, Percept.legs)
  else if nearB dist = false then (t, ⟨false, false⟩, Percept.empty)
  else if t.cooldown > 0 then (t, ⟨false, false⟩, Percept.wall)
  else
    match scanStats t with
    | none => (t, ⟨false, false⟩, Percept.scanning)
    | some s =>
      if s.dropoutRate ≥ LEGS_DROPOUT ∨ s.spread ≥ LEGS_SPREAD then
        ({ t with ringCount := 0 }, ⟨true, true⟩, Percept.legs)
      else
        ({ t with cooldown := COOLDOWN_DUR, ringCount := 0 }, ⟨false, false⟩, Percept.wall)

/-- The behaviour-relevant robot fields of the croc firmware.  Motor PWM
outputs, egg and particle bookkeeping, the lunge choreography timers and
the guard jitter are not carried: they are written by updateBehavior but
never read by any state-transition condition. -/
structure Robot2 where
  state : CrocState
  stateTimer : ℚ
  safeTimer : ℚ
  layingStep : ℕ
  layingSubTimer : ℚ
  layingEggTimer : ℚ
  layingEggsLeft : ℕ
  calmTimer : ℚ
  didPostCalmLay : Bool
  threat : ThreatSt
deriving Repr, DecidableEq

/-- The enter dispatcher of the croc firmware, restricted to the fields
carried by Robot2: every entry resets the state timer; entering LAYING
resets the laying sub-state and starts a clutch (which refills
layingEggsLeft); entering CALMING resets the calming sub-state.  The
remaining per-state resets of the source (lunge fields, jitter timer,
buzzing flag, PWM zeroing) touch only uncarried fields. -/
def enterCroc (r : Robot2) (s : CrocState) : Robot2 :=
  let r := { r with state := s, stateTimer := 0 }
  match s with
  | CrocState.LAYING =>
    { r with layingStep := 0, layingSubTimer := 0, layingEggTimer := 0,
             layingEggsLeft := EGGS_PER_CLUTCH }
  | CrocState.CALMING => { r with calmTimer := 0, didPostCalmLay := false }
  | _ => r

/-- The switch statement of the croc updateBehavior, on the carried
fields, with legsPresent the near test on this tick's reading. -/
def crocSwitch (r : Robot2) (legsPresent : Bool) (dt : ℚ) : Robot2 :=
  match r.state with
  | CrocState.SLEEP => r
  | CrocState.IDLE_SAFE =>
    let r := { r with safeTimer := r.safeTimer + dt }
    if r.safeTimer ≥ SAFE_CYCLE_PERIOD then enterCroc { r with safeTimer := 0 } CrocState.LAYING
    else r
  | CrocState.LAYING =>
    let r := { r with layingEggTimer := r.layingEggTimer + dt }
    let r := if r.layingEggsLeft > 0 ∧ r.layingEggTimer ≥ 9/50 then
               { r with layingEggTimer := r.layingEggTimer - 9/50,
                        layingEggsLeft := r.layingEggsLeft - 1 }
             else r
    if r.layingEggsLeft ≤ 0 then
      let r := { r with layingSubTimer := r.layingSubTimer + dt }
      if r.layingSubTimer ≥ INTER_CLUTCH_DELAY then
        let r := { r with layingSubTimer := 0, layingStep := r.layingStep + 1 }
        if r.layingStep < CLUTCH_COUNT then
          { r with layingEggsLeft := EGGS_PER_CLUTCH, layingEggTimer := 0 }
        else enterCroc r CrocState.SLEEP
      else r
    else r
  | CrocState.AGGRESSION =>
    if r.stateTimer ≥ AGGRESSION_DURATION then enterCroc r CrocState.RETREATING
    else if legsPresent = false then
      (if r.stateTimer > 3 then enterCroc r CrocState.RETREATING else r)
    else r
  | CrocState.RETREATING =>
    if r.stateTimer > 2 then enterCroc r CrocState.GUARD else r
  | CrocState.GUARD =>
    if legsPresent then enterCroc r CrocState.AGGRESSION
    else if r.stateTimer ≥ GUARD_DURATION then enterCroc r CrocState.CALMING
    else r
  | CrocState.CALMING =>
    if legsPresent then enterCroc r CrocState.AGGRESSION
    else
      let r := { r with calmTimer := r.calmTimer + dt }
      let r := if r.calmTimer ≥ CALM_WAIT ∧ r.didPostCalmLay = false then
                 { r with didPostCalmLay := true }
               else r
      if r.calmTimer ≥ CALM_WAIT + 2 then enterCroc { r with safeTimer := 0 } CrocState.IDLE_SAFE
      else r

/-- The updateBehavior method of the croc ring-buffer firmware, as its
action on the carried fields: advance the state timer, run the threat
classifier (entering AGGRESSION when it says so), then run the per-state
transition logic of the switch statement. -/
def updateBehaviorCroc (r0 : Robot2) (dist : Dist) (dt : ℚ) : Robot2 :=
  let r1 := { r0 with stateTimer := r0.stateTimer + dt }
  let c := updateThreatClassifier r1.state r1.threat dist dt
  let r2 := { r1 with threat := c.1 }
  let r := if c.2.1.enterAggression = true ∧ r2.state ≠ CrocState.AGGRESSION then
             enterCroc r2 CrocState.AGGRESSION
           else r2
  crocSwitch r (nearB dist) dt

/-! ### The simple firmware variant (SLEEP/AGGRESSION, no classifier)

Its updateBehavior computes legsPresent as the bare JS comparison of the
last measurement against WAKE_DIST_FROM_BOUNDARY; since Infinity < 1.5 is
false in JS, a dropout reading never satisfies it.  The global trigger
then enters AGGRESSION whenever legsPresent holds and the robot is not
already aggressive. -/

/-- The legsPresent test of the simple firmware variant: the bare
comparison of the reading against the wake distance, with the reading
none (Infinity) comparing false. -/
def legsPresentSimple (dist : Dist) : Bool :=
  match dist with
  | none => false
  | some d => d < WAKE_DIST_FROM_BOUNDARY

/-- The global aggression trigger at the top of the simple firmware
variant's updateBehavior: enter AGGRESSION exactly when legsPresent holds
and the state is not already AGGRESSION. -/
def simpleTrigger (state : CrocState) (dist : Dist) : CrocState :=
  if legsPresentSimple dist = true ∧ state ≠ CrocState.AGGRESSION then CrocState.AGGRESSION
  else state

/-! ### firmware.js escape choreography (territory variant)

The PANIC state runs a four-phase timed choreography (STOP 0.05 s,
REVERSE 0.4 s, TURN 0.5 s, COOLDOWN 2.0 s) and then enters PATROL; the
RECOVER state waits 0.4 s and enters PATROL.  Both can be preempted by
the line sensor, which diverts into LINE_AVOID; LINE_AVOID runs its own
timed stages and exits to PATROL (or back to SHOVE or BLOCK when it
interrupted those states and the target is still near).  The embedding
carries exactly the fields these transitions read: the state, the state
timer, the panic sub-state and the remembered return state.  Motor
commands, the servo, and the scan pipeline are not carried: they never
feed back into these transitions (the scan sums only choose a turn
direction).  The PATROL, ACQUIRE, SHOVE and BLOCK cases of the switch are
not embedded and leave the carried fields unchanged; the escape claims
only traverse PANIC, RECOVER, LINE_AVOID and the entry into PATROL. -/

/-- The behaviour states of the territory firmware. -/
inductive TerrState
  | PATROL
  | ACQUIRE
  | SHOVE
  | BLOCK
  | LINE_AVOID
  | PANIC
  | RECOVER
deriving Repr, DecidableEq

/-- The phases of the PANIC choreography. -/
inductive PanicPhase
  | STOP
  | REVERSE
  | TURN
  | COOLDOWN
deriving Repr, DecidableEq

/-- The panic sub-state of the territory firmware runtime. -/
structure PanicSt where
  phase : PanicPhase
  t : ℚ
  cooldown : ℚ
deriving Repr, DecidableEq

/-- The carried fields of the territory firmware runtime. -/
structure TerrSt where
  state : TerrState
  stateTimer : ℚ
  panic : PanicSt
  returnState : TerrState
deriving Repr, DecidableEq

/-- The enter dispatcher of the territory firmware, on the carried
fields: every entry resets the state timer, and entering PANIC resets the
panic sub-state (phase STOP, timers zero).  The other per-state resets of
the source touch only uncarried scan, shove and block fields. -/
def enterTerr (r : TerrSt) (s : TerrState) : TerrSt :=
  let r := { r with state := s, stateTimer := 0 }
  match s with
  | TerrState.PANIC => { r with panic := ⟨PanicPhase.STOP, 0, 0⟩ }
  | _ => r

/-- The territory runtime state on entering PANIC, with the initial
returnState PATROL of the runtime constructor. -/
def panicEntry : TerrSt := ⟨TerrState.PANIC, 0, ⟨PanicPhase.STOP, 0, 0⟩, TerrState.PATROL⟩

/-- One tick of the territory updateBehavior restricted to the escape
sub-machine: advance the state timer; divert into LINE_AVOID when the
line sensor fires and the robot is not already avoiding (remembering the
interrupted state); then run the PANIC, RECOVER or LINE_AVOID case of the
switch.  The inputs are the tick length, the line-detection result of
this tick, and the still-near test LINE_AVOID reads on completion. -/
def updateBehaviorTerr (r0 : TerrSt) (dt : ℚ) (line stillNear : Bool) : TerrSt :=
  let r := { r0 with stateTimer := r0.stateTimer + dt }
  let r := if r.state ≠ TerrState.LINE_AVOID ∧ line = true then
             enterTerr { r with returnState := r.state } TerrState.LINE_AVOID
           else r
  match r.state with
  | TerrState.PANIC =>
    let p := { r.panic with t := r.panic.t + dt }
    match p.phase with
    | PanicPhase.STOP =>
      if p.t ≥ 1/20 then { r with panic := { p with phase := PanicPhase.REVERSE, t := 0 } }
      else { r with panic := p }
    | PanicPhase.REVERSE =>
      if p.t ≥ 2/5 then { r with panic := { p with phase := PanicPhase.TURN, t := 0 } }
      else { r with panic := p }
    | PanicPhase.TURN =>
      if p.t ≥ 1/2 then
        { r with panic := { p with phase := PanicPhase.COOLDOWN, t := 0, cooldown := 2 } }
      else { r with panic := p }
    | PanicPhase.COOLDOWN =>
      let p := { p with cooldown := p.cooldown - dt }
      if p.cooldown ≤ 0 then enterTerr { r with panic := p } TerrState.PATROL
      else { r with panic := p }
  | TerrState.RECOVER =>
    if r.stateTimer ≥ 2/5 then enterTerr r TerrState.PATROL else r
  | TerrState.LINE_AVOID =>
    if r.stateTimer < 1/50 then r
    else if r.stateTimer < 37/100 then r
    else if r.stateTimer < 87/100 then r
    else if r.stateTimer < 157/100 then r
    else if stillNear = true ∧ (r.returnState = TerrState.SHOVE ∨ r.returnState = TerrState.BLOCK)
         then enterTerr r r.returnState
         else enterTerr r TerrState.PATROL
  | _ => r

/-- One tick of input to the escape sub-machine: tick length, line
detection, still-near flag. -/
structure TerrTick where
  dt : ℚ
  line : Bool
  stillNear : Bool
deriving Repr, DecidableEq

/-- Run the escape sub-machine over a list of ticks. -/
def runTerr (r : TerrSt) : List TerrTick → TerrSt
  | [] => r
  | tk :: rest => runTerr (updateBehaviorTerr r tk.dt tk.line tk.stillNear) rest

/-- Whether the run visits the PATROL state: true when the current state
already is PATROL or some prefix of the ticks drives the machine into
PATROL. -/
def reachesPatrol (r : TerrSt) : List TerrTick → Bool
  | [] => decide (r.state = TerrState.PATROL)
  | tk :: rest =>
    decide (r.state = TerrState.PATROL) ||
    reachesPatrol (updateBehaviorTerr r tk.dt tk.line tk.stillNear) rest

/-- The total simulated time of a tick list. -/
def totalTime (ticks : List TerrTick) : ℚ := (ticks.map TerrTick.dt).sum

/-- The leg signature of the croc ring-buffer classifier: dropout rate at
least LEGS_DROPOUT or spread at least LEGS_SPREAD. -/
def legsSig (s : RingStats) : Prop :=
  s.dropoutRate ≥ LEGS_DROPOUT ∨ s.spread ≥ LEGS_SPREAD

/-- A test on one intersection-result category of castRay: every hit
(non-null result) is at least d away. -/
def noHitWithin (l : List (Option ℚ)) (d : ℚ) : Bool :=
  l.all (fun x => match x with
    | none => true
    | some v => d ≤ v)

/-- The same test for the bag category, where hidden bags are skipped by
the source regardless of their intersection result. -/
def noBagHitWithin (l : List (Bool × Option ℚ)) (d : ℚ) : Bool :=
  l.all (fun x => x.1 || (match x.2 with
    | none => true
    | some v => decide (d ≤ v)))

/-- Four ticks of one second each, line sensor quiet. -/
def ticksA : List TerrTick := List.replicate 4 ⟨1, false, false⟩

/-- Nine ticks of half a second, with the line sensor firing exactly
once late in the PANIC cooldown phase. -/
def ticksB : List TerrTick :=
  [⟨1/2, false, false⟩, ⟨1/2, false, false⟩, ⟨1/2, false, false⟩, ⟨1/2, false, false⟩,
   ⟨1/2, false, false⟩, ⟨1/2, true, false⟩, ⟨1/2, false, false⟩, ⟨1/2, false, false⟩,
   ⟨1/2, false, false⟩]

/-- The inductive invariant of the escape run: in PANIC each phase timer
is within its phase duration (and the cooldown, once armed, is positive
and at most 2); in RECOVER the state timer is within the recover dwell. -/
def escInv (r : TerrSt) : Prop :=
  (r.state = TerrState.PANIC ∧
    ((r.panic.phase = PanicPhase.STOP ∧ 0 ≤ r.panic.t ∧ r.panic.t < 1/20) ∨
     (r.panic.phase = PanicPhase.REVERSE ∧ 0 ≤ r.panic.t ∧ r.panic.t < 2/5) ∨
     (r.panic.phase = PanicPhase.TURN ∧ 0 ≤ r.panic.t ∧ r.panic.t < 1/2) ∨
     (r.panic.phase = PanicPhase.COOLDOWN ∧ 0 < r.panic.cooldown ∧ r.panic.cooldown ≤ 2))) ∨
  (r.state = TerrState.RECOVER ∧ 0 ≤ r.stateTimer ∧ r.stateTimer < 2/5)

/-- An upper bound, for ticks of length at most maxTick, on the
simulated time still needed to reach PATROL: the remaining phase
durations plus one maxTick of discarded overshoot per phase boundary
still ahead. -/
def escMeasure (maxTick : ℚ) (r : TerrSt) : ℚ :=
  match r.state with
  | TerrState.RECOVER => 2/5 - r.stateTimer
  | TerrState.PANIC =>
    match r.panic.phase with
    | PanicPhase.STOP => (1/20 - r.panic.t) + 29/10 + 3 * maxTick
    | PanicPhase.REVERSE => (2/5 - r.panic.t) + 5/2 + 2 * maxTick
    | PanicPhase.TURN => (1/2 - r.panic.t) + 2 + maxTick
    | PanicPhase.COOLDOWN => r.panic.cooldown
  | _ => 0

/-- Six ticks of one second each, line sensor quiet. -/
def ticksC : List TerrTick := List.replicate 6 ⟨1, false, false⟩

/-! ## Helper lemmas -/

lemma clampLocal_mem (v lo hi : ℚ) (h : lo ≤ hi) :
    lo ≤ clampLocal v lo hi ∧ clampLocal v lo hi ≤ hi := by
  unfold clampLocal
  split_ifs <;> constructor <;> linarith

/-- The classifier triggers aggression exactly when the robot is not
already aggressive, the reading is near, the (decremented) cooldown is
not positive, and the ring statistics exist and show the leg signature. -/
lemma classifier_enterAgg_iff (state : CrocState) (t : ThreatSt) (dist : Dist) (dt : ℚ) :
    (updateThreatClassifier state t dist dt).2.1.enterAggression = true ↔
      (state ≠ CrocState.AGGRESSION ∧ nearB dist = true ∧
       ¬ (sampleStep t dist dt).cooldown > 0 ∧
       ∃ s, scanStats (sampleStep t dist dt) = some s ∧ legsSig s) := by
  unfold updateThreatClassifier
  by_cases h1 : state = CrocState.AGGRESSION
  · simp [h1]
  · by_cases h2 : nearB dist = false
    · simp [h1, h2]
    · by_cases h3 : (sampleStep t dist dt).cooldown > 0
      · simp [h1, h2, h3]
      · rcases hs : scanStats (sampleStep t dist dt) with _ | s
        · simp [h1, h2, h3, hs]
        · by_cases hsig : s.dropoutRate ≥ LEGS_DROPOUT ∨ s.spread ≥ LEGS_SPREAD
          · simp [h1, h2, h3, hs, hsig, legsSig]
          · simp [h1, h2, h3, hs, hsig, legsSig]

lemma classifier_no_agg_of_not_near (state : CrocState) (t : ThreatSt) (dist : Dist) (dt : ℚ)
    (h : nearB dist = false) :
    (updateThreatClassifier state t dist dt).2.1.enterAggression = false := by
  rw [Bool.eq_false_iff]
  intro hagg
  rcases (classifier_enterAgg_iff state t dist dt).mp hagg with ⟨-, hnear, -⟩
  rw [h] at hnear
  cases hnear

lemma scanStats_starved (t : ThreatSt) (h : t.ringCount < 4) : scanStats t = none := by
  unfold scanStats
  rw [if_pos h]

lemma classifier_no_agg_of_starved (state : CrocState) (t : ThreatSt) (dist : Dist) (dt : ℚ)
    (h : (sampleStep t dist dt).ringCount < 4) :
    (updateThreatClassifier state t dist dt).2.1.enterAggression = false := by
  rw [Bool.eq_false_iff]
  intro hagg
  rcases (classifier_enterAgg_iff state t dist dt).mp hagg with ⟨-, -, -, s, hs, -⟩
  rw [scanStats_starved _ h] at hs
  cases hs

/-- The switch statement alone never moves a non-aggressive robot into
AGGRESSION unless it is in GUARD or CALMING with a near reading. -/
lemma crocSwitch_state_cases (r : Robot2) (lp : Bool) (dt : ℚ)
    (hst : r.state ≠ CrocState.AGGRESSION)
    (hguard : r.state = CrocState.GUARD ∨ r.state = CrocState.CALMING → lp = false) :
    (crocSwitch r lp dt).state ≠ CrocState.AGGRESSION := by
  rcases r with ⟨st, stT, sT, lS, lSub, lEgg, lLeft, cT, dP, th⟩
  simp only at hguard hst
  cases st with
  | AGGRESSION => exact absurd rfl hst
  | SLEEP => simp [crocSwitch]
  | IDLE_SAFE =>
    simp only [crocSwitch]
    split_ifs <;> simp [enterCroc]
  | LAYING =>
    simp only [crocSwitch]
    split_ifs <;> simp [enterCroc]
  | RETREATING =>
    simp only [crocSwitch]
    split_ifs <;> simp [enterCroc]
  | GUARD =>
    have hnear : lp = false := hguard (Or.inl rfl)
    simp only [crocSwitch, hnear]
    split_ifs <;> simp_all [enterCroc]
  | CALMING =>
    have hnear : lp = false := hguard (Or.inr rfl)
    simp only [crocSwitch, hnear]
    split_ifs <;> simp_all [enterCroc]

/-- If the classifier does not request aggression and GUARD or CALMING do
not see a near reading, no state other than AGGRESSION transitions into
AGGRESSION over a full updateBehavior tick. -/
lemma updateBehaviorCroc_state_cases (r : Robot2) (dist : Dist) (dt : ℚ)
    (hagg : (updateThreatClassifier r.state r.threat dist dt).2.1.enterAggression = false)
    (hst : r.state ≠ CrocState.AGGRESSION)
    (hguard : r.state = CrocState.GUARD ∨ r.state = CrocState.CALMING → nearB dist = false) :
    (updateBehaviorCroc r dist dt).state ≠ CrocState.AGGRESSION := by
  unfold updateBehaviorCroc
  simp only [hagg]
  rw [if_neg (by simp)]
  exact crocSwitch_state_cases _ _ _ hst hguard

lemma pingReport_some (b noise : ℚ) :
    pingReport (some b) noise
      = if b ≤ ULTRASONIC_RANGE then some (jsMax 0 (b + noise)) else none := rfl

lemma castRayFold_le (hits : List (Option ℚ)) (n : ℚ) : castRayFold hits n ≤ n := by
  induction hits generalizing n with
  | nil => exact le_refl n
  | cons t rest ih =>
    cases t with
    | none => exact ih n
    | some v =>
      show castRayFold rest (if v < n then v else n) ≤ n
      refine le_trans (ih _) ?_
      by_cases h : v < n
      · rw [if_pos h]; linarith
      · rw [if_neg h]

lemma castRayFold_noHit (hits : List (Option ℚ)) (d : ℚ) (h : noHitWithin hits d = true) :
    castRayFold hits d = d := by
  induction hits with
  | nil => rfl
  | cons t rest ih =>
    rw [noHitWithin, List.all_cons, Bool.and_eq_true] at h
    cases t with
    | none => exact ih h.2
    | some v =>
      show castRayFold rest (if v < d then v else d) = d
      have hv : d ≤ v := by
        have := h.1
        simpa using this
      rw [if_neg (not_lt.mpr hv)]
      exact ih h.2

lemma castRayBags_le (bags : List (Bool × Option ℚ)) (n : ℚ) : castRayBags bags n ≤ n := by
  induction bags generalizing n with
  | nil => exact le_refl n
  | cons t rest ih =>
    rcases t with ⟨hd, t2⟩
    cases hd with
    | true => exact ih n
    | false =>
      cases t2 with
      | none => exact ih n
      | some v =>
        show castRayBags rest (if v < n then v else n) ≤ n
        refine le_trans (ih _) ?_
        by_cases h : v < n
        · rw [if_pos h]; linarith
        · rw [if_neg h]

lemma castRayBags_noHit (bags : List (Bool × Option ℚ)) (d : ℚ)
    (h : noBagHitWithin bags d = true) : castRayBags bags d = d := by
  induction bags with
  | nil => rfl
  | cons t rest ih =>
    rw [noBagHitWithin, List.all_cons, Bool.and_eq_true] at h
    rcases t with ⟨hd, t2⟩
    cases hd with
    | true => exact ih h.2
    | false =>
      cases t2 with
      | none => exact ih h.2
      | some v =>
        show castRayBags rest (if v < d then v else d) = d
        have hv : d ≤ v := by
          have := h.1
          simpa using this
        rw [if_neg (not_lt.mpr hv)]
        exact ih h.2

/-! ## Claim C2: range invariant of the readings handed to the firmware

The centimetre path does keep the invariant: normaliseCmFromMeters clamps
every finite metre reading into the configured centimetre range.  The raw
metre path does not: UltrasonicSensor.ping clamps only from below by
zero, so a present reading below the minimum range reaches the croc
firmware, is stored in its ring buffer and is compared against the
NEAR_DIST behaviour threshold. -/

/-- Claim C2 (amended): every normalised centimetre reading produced from
a finite (present) metre measurement lies in the configured range between
ULTRASONIC_MIN_CM and ULTRASONIC_MAX_CM. -/
theorem normalise_cm_within_configured_range (m : ℚ) :
    ULTRASONIC_MIN_CM ≤ normaliseCmFromMeters (some m) ∧
    normaliseCmFromMeters (some m) ≤ ULTRASONIC_MAX_CM := by
  have h := clampLocal_mem (m * 100) ULTRASONIC_MIN_CM ULTRASONIC_MAX_CM
    (by norm_num [ULTRASONIC_MIN_CM, ULTRASONIC_MAX_CM])
  exact ⟨h.1, h.2⟩

/-- Counterexample to claim C2 as stated: a surface one centimetre away
with zero noise produces the present reading 0.01 m, which is below the
minimum range (8 cm), yet it satisfies the near comparison against the
NEAR_DIST behaviour threshold and is stored into the threat ring buffer
by the very next sensor-rate sampling step. -/
theorem present_reading_below_min_range_reaches_firmware :
    pingReport (some (1/100)) 0 = some (1/100) ∧
    (1/100 : ℚ) * 100 < ULTRASONIC_MIN_CM ∧
    nearB (some (1/100)) = true ∧
    (sampleStep threatInit (some (1/100)) (1/15)).ring.getD 0 none = some (1/100) ∧
    (sampleStep threatInit (some (1/100)) (1/15)).ringCount = 1 := by
  norm_num [pingReport_some, sampleStep, threatInit, pushSample, nearB, jsMax,
    NEAR_DIST, WAKE_DIST_FROM_BOUNDARY, SAMPLE_DT, RING_N, List.replicate,
    ULTRASONIC_RANGE, ULTRASONIC_MIN_CM]

/-! ## Claim C3: behaviour when the geometry query finds no surface

The ray-casting query World.castRay of the ToF world variant does
saturate at the maximum range.  The ultrasonic sensor of robot.js does
not: when the nearest hit is beyond ULTRASONIC_RANGE (in particular when
nothing is hit at all, best = Infinity), ping stores Infinity, the
no-echo value, not a present max-range reading; and ping has no
independent dropout draw at all. -/

/-- Counterexample to claim C3 as stated: with no surface within range
(either no intersection at all, or a nearest hit at 3.5 m beyond the 3 m
range) and no dropout involved, UltrasonicSensor.ping reports the
no-echo value Infinity (none), not a present reading equal to the
maximum range. -/
theorem no_hit_ping_reports_no_echo_not_max_range :
    pingBest (fun _ => none) (fun (_ : Unit) _ => none) [] (rayOffsets 1) = none ∧
    pingReport none 0 = none ∧
    pingReport (some (7/2)) 0 = none ∧
    pingReport none 0 ≠ some ULTRASONIC_RANGE ∧
    pingReport (some (7/2)) 0 ≠ some ULTRASONIC_RANGE := by
  refine ⟨?_, rfl, ?_, by simp [pingReport], ?_⟩
  · norm_num [pingBest, rayOffsets, rayStep, optMinD, distLt]
  · rw [pingReport_some, if_neg (by norm_num [ULTRASONIC_RANGE])]
  · rw [pingReport_some, if_neg (by norm_num [ULTRASONIC_RANGE])]
    simp

/-- Claim C3 (amended): the geometry query World.castRay saturates at the
maximum range: its result never exceeds TOF_MAX_MM/1000, and when no
category offers a hit below that range the result is exactly
TOF_MAX_MM/1000 (a present max-range distance); the ultrasonic sensor of
robot.js instead reports no echo whenever the nearest surface is beyond
ULTRASONIC_RANGE. -/
theorem castray_saturates_at_max_range
    (walls legs pinned : List (Option ℚ)) (bags : List (Bool × Option ℚ))
    (pedestals : List (Option ℚ)) (b noise : ℚ) :
    castRay walls legs pinned bags pedestals ≤ TOF_MAX_MM / 1000 ∧
    (noHitWithin walls (TOF_MAX_MM / 1000) = true →
     noHitWithin legs (TOF_MAX_MM / 1000) = true →
     noHitWithin pinned (TOF_MAX_MM / 1000) = true →
     noBagHitWithin bags (TOF_MAX_MM / 1000) = true →
     noHitWithin pedestals (TOF_MAX_MM / 1000) = true →
     castRay walls legs pinned bags pedestals = TOF_MAX_MM / 1000) ∧
    (ULTRASONIC_RANGE < b → pingReport (some b) noise = none) := by
  refine ⟨?_, ?_, ?_⟩
  · unfold castRay
    refine le_trans (castRayFold_le _ _) ?_
    refine le_trans (castRayBags_le _ _) ?_
    refine le_trans (castRayFold_le _ _) ?_
    refine le_trans (castRayFold_le _ _) ?_
    exact castRayFold_le _ _
  · intro h1 h2 h3 h4 h5
    unfold castRay
    rw [castRayFold_noHit walls _ h1, castRayFold_noHit legs _ h2,
        castRayFold_noHit pinned _ h3, castRayBags_noHit bags _ h4,
        castRayFold_noHit pedestals _ h5]
  · intro hb
    rw [pingReport_some, if_neg (not_le.mpr hb)]

/-- Witness for the amended claim C3 at a concrete world: one far wall
and one null wall intersection, no legs, one far pinned leg, one hidden
bag and one visible far bag, one null pedestal; and a nearest hit of
3.5 m for the ultrasonic side. -/
theorem castray_saturates_witness :
    castRay [some 5, none] [] [some 3] [(true, some 1), (false, some 2)] [none] = TOF_MAX_MM / 1000 ∧
    pingReport (some (7/2)) (1/100) = none := by
  have h := castray_saturates_at_max_range [some 5, none] [] [some 3]
    [(true, some 1), (false, some 2)] [none] (7/2) (1/100)
  refine ⟨h.2.1 ?_ ?_ ?_ ?_ ?_, h.2.2 (by norm_num [ULTRASONIC_RANGE])⟩ <;>
    norm_num [noHitWithin, noBagHitWithin, TOF_MAX_MM]

/-! ## Claim C1: a dropout reading never triggers scan or aggression

A dropout is the JS value Infinity (modelled by none).  In the croc
firmware the near test requires a finite reading below NEAR_DIST, so the
classifier reports the empty percept and no aggression, and the
behaviour switch cannot enter AGGRESSION; in the simple variant the bare
JS comparison Infinity < WAKE_DIST_FROM_BOUNDARY is false, so the global
trigger leaves the state unchanged. -/

/-- Claim C1: on a dropout tick the croc classifier never requests
aggression (from any state and any classifier state), reports the empty
percept outside AGGRESSION, the full behaviour tick never transitions
into AGGRESSION, the simple variant's trigger leaves the state unchanged,
and the near test indeed demands a finite reading below the detection
distance. -/
theorem dropout_never_triggers_scan_or_aggression
    (state : CrocState) (t : ThreatSt) (r : Robot2) (dt : ℚ) :
    (updateThreatClassifier state t none dt).2.1.enterAggression = false ∧
    (state ≠ CrocState.AGGRESSION →
      (updateThreatClassifier state t none dt).2.2 = Percept.empty) ∧
    (r.state ≠ CrocState.AGGRESSION →
      (updateBehaviorCroc r none dt).state ≠ CrocState.AGGRESSION) ∧
    simpleTrigger state none = state ∧
    (∀ d : ℚ, nearB (some d) = true → d < NEAR_DIST) ∧
    nearB none = false := by
  refine ⟨classifier_no_agg_of_not_near state t none dt rfl, ?_, ?_, ?_, ?_, rfl⟩
  · intro h
    simp [updateThreatClassifier, h, nearB]
  · intro h
    exact updateBehaviorCroc_state_cases r none dt
      (classifier_no_agg_of_not_near _ _ _ _ rfl) h (fun _ => rfl)
  · simp [simpleTrigger, legsPresentSimple]
  · intro d hd
    simpa [nearB] using hd

/-- Witness for claim C1 at a concrete input: a GUARD robot with a fresh
classifier state and a dropout reading stays out of AGGRESSION. -/
theorem dropout_never_triggers_witness :
    (updateThreatClassifier CrocState.GUARD threatInit none (1/30)).2.1.enterAggression = false ∧
    (updateThreatClassifier CrocState.GUARD threatInit none (1/30)).2.2 = Percept.empty ∧
    (updateBehaviorCroc ⟨CrocState.GUARD, 0, 0, 0, 0, 0, 10, 0, false, threatInit⟩
        none (1/30)).state ≠ CrocState.AGGRESSION ∧
    (1 : ℚ) < NEAR_DIST := by
  have h := dropout_never_triggers_scan_or_aggression CrocState.GUARD threatInit
    ⟨CrocState.GUARD, 0, 0, 0, 0, 0, 10, 0, false, threatInit⟩ (1/30)
  exact ⟨h.1, h.2.1 (by simp), h.2.2.1 (by simp),
    h.2.2.2.2.1 1 (by norm_num [nearB, NEAR_DIST, WAKE_DIST_FROM_BOUNDARY])⟩

/-! ## Claim C5: starved buffers are never classified

The classifier part of the claim holds: with fewer than 4 ring samples
scanStats returns null and the classifier never requests aggression, and
from SLEEP, IDLE_SAFE, LAYING or RETREATING the tick cannot end in
AGGRESSION.  The engine part of the claim fails on the code: the GUARD
and CALMING cases of the switch re-enter AGGRESSION on any near reading,
regardless of the ring buffer. -/

/-- Counterexample to claim C5 as stated: a GUARD robot with an empty
ring buffer (0 samples, classifier refuses to classify and requests
nothing) still enters AGGRESSION on that very tick, because the GUARD
case acts on the bare near reading. -/
theorem guard_enters_aggression_despite_starved_buffer :
    (sampleStep threatInit (some 1) (1/100)).ringCount < 4 ∧
    scanStats (sampleStep threatInit (some 1) (1/100)) = none ∧
    (updateThreatClassifier CrocState.GUARD threatInit (some 1) (1/100)).2.1.enterAggression
      = false ∧
    (updateBehaviorCroc ⟨CrocState.GUARD, 0, 0, 0, 0, 0, 10, 0, false, threatInit⟩
        (some 1) (1/100)).state = CrocState.AGGRESSION := by
  have hcount : (sampleStep threatInit (some 1) (1/100)).ringCount < 4 := by
    norm_num [sampleStep, threatInit, nearB, jsMax, NEAR_DIST, WAKE_DIST_FROM_BOUNDARY,
      SAMPLE_DT]
  refine ⟨hcount, scanStats_starved _ hcount,
    classifier_no_agg_of_starved _ _ _ _ hcount, ?_⟩
  have hnear : nearB (some 1) = true := by
    norm_num [nearB, NEAR_DIST, WAKE_DIST_FROM_BOUNDARY]
  simp only [updateBehaviorCroc, classifier_no_agg_of_starved _ _ _ _ hcount]
  rw [if_neg (by simp)]
  simp [crocSwitch, hnear, enterCroc]

/-- Claim C5 (amended): with fewer than the minimum number of ring
samples at classification time, scanStats returns null, the classifier
never requests aggression, and from every state other than AGGRESSION,
GUARD and CALMING the behaviour tick does not end in AGGRESSION; the
GUARD and CALMING states, however, re-enter AGGRESSION on a bare near
reading regardless of the buffer. -/
theorem starved_buffer_never_classified
    (r : Robot2) (dist : Dist) (dt : ℚ)
    (hst : r.state ≠ CrocState.AGGRESSION)
    (hG : r.state ≠ CrocState.GUARD)
    (hC : r.state ≠ CrocState.CALMING)
    (hcount : (sampleStep r.threat dist dt).ringCount < 4) :
    scanStats (sampleStep r.threat dist dt) = none ∧
    (updateThreatClassifier r.state r.threat dist dt).2.1.enterAggression = false ∧
    (updateBehaviorCroc r dist dt).state ≠ CrocState.AGGRESSION := by
  refine ⟨scanStats_starved _ hcount, classifier_no_agg_of_starved _ _ _ _ hcount, ?_⟩
  refine updateBehaviorCroc_state_cases r dist dt
    (classifier_no_agg_of_starved _ _ _ _ hcount) hst (fun h => ?_)
  rcases h with h | h
  · exact absurd h hG
  · exact absurd h hC

/-- Witness for the amended claim C5: a SLEEP robot with an empty ring
buffer and a near reading stays out of AGGRESSION. -/
theorem starved_buffer_witness :
    scanStats (sampleStep threatInit (some 1) (1/100)) = none ∧
    (updateThreatClassifier CrocState.SLEEP threatInit (some 1) (1/100)).2.1.enterAggression
      = false ∧
    (updateBehaviorCroc ⟨CrocState.SLEEP, 0, 0, 0, 0, 0, 10, 0, false, threatInit⟩
        (some 1) (1/100)).state ≠ CrocState.AGGRESSION := by
  exact starved_buffer_never_classified
    ⟨CrocState.SLEEP, 0, 0, 0, 0, 0, 10, 0, false, threatInit⟩ (some 1) (1/100)
    (by simp) (by simp) (by simp)
    (by norm_num [sampleStep, threatInit, nearB, jsMax, NEAR_DIST, WAKE_DIST_FROM_BOUNDARY,
      SAMPLE_DT])

/-! ## Claim C6: the wall cooldown suppresses immediate re-triggering -/

lemma sampleStep_cooldown (t : ThreatSt) (dist : Dist) (dt : ℚ) :
    (sampleStep t dist dt).cooldown
      = if t.cooldown > 0 then jsMax 0 (t.cooldown - dt) else t.cooldown := by
  simp only [sampleStep, pushSample]
  split_ifs <;> rfl

/-- Claim C6: a near wall-classified reading arms the cooldown to
COOLDOWN_DUR; while the (decremented) cooldown is strictly positive a
near reading is answered with the wall percept, no reclassification and
no aggression; the cooldown decrement is exactly max 0 (cooldown - dt)
and is monotone for nonnegative dt; and the moment the cooldown reaches
zero the gate is open again: a leg-signature buffer immediately triggers
aggression. -/
theorem wall_cooldown_suppresses_retrigger
    (state : CrocState) (t0 : ThreatSt) (dist : Dist) (dt : ℚ) (s : RingStats) :
    (0 ≤ dt → (sampleStep t0 dist dt).cooldown ≤ t0.cooldown) ∧
    (t0.cooldown > 0 → (sampleStep t0 dist dt).cooldown = jsMax 0 (t0.cooldown - dt)) ∧
    (state ≠ CrocState.AGGRESSION → nearB dist = true →
      (sampleStep t0 dist dt).cooldown > 0 →
      (updateThreatClassifier state t0 dist dt).2.1.enterAggression = false ∧
      (updateThreatClassifier state t0 dist dt).2.2 = Percept.wall ∧
      (updateThreatClassifier state t0 dist dt).1 = sampleStep t0 dist dt) ∧
    (state ≠ CrocState.AGGRESSION → nearB dist = true →
      ¬ (sampleStep t0 dist dt).cooldown > 0 →
      scanStats (sampleStep t0 dist dt) = some s → ¬ legsSig s →
      (updateThreatClassifier state t0 dist dt).1.cooldown = COOLDOWN_DUR ∧
      (updateThreatClassifier state t0 dist dt).2.1.enterAggression = false ∧
      (updateThreatClassifier state t0 dist dt).2.2 = Percept.wall) ∧
    (state ≠ CrocState.AGGRESSION → nearB dist = true →
      ¬ (sampleStep t0 dist dt).cooldown > 0 →
      scanStats (sampleStep t0 dist dt) = some s → legsSig s →
      (updateThreatClassifier state t0 dist dt).2.1.enterAggression = true) := by
  refine ⟨?_, ?_, ?_, ?_, ?_⟩
  · intro hdt
    rw [sampleStep_cooldown]
    split_ifs with hc
    · unfold jsMax
      split_ifs <;> linarith
    · exact le_refl _
  · intro hc
    rw [sampleStep_cooldown, if_pos hc]
  · intro h1 h2 h3
    simp [updateThreatClassifier, h1, h2, h3]
  · intro h1 h2 h3 hs hsig
    have hsig2 : ¬ (s.dropoutRate ≥ LEGS_DROPOUT ∨ s.spread ≥ LEGS_SPREAD) := hsig
    simp [updateThreatClassifier, h1, h2, h3, hs, hsig2, COOLDOWN_DUR]
  · intro h1 h2 h3 hs hsig
    have hsig2 : s.dropoutRate ≥ LEGS_DROPOUT ∨ s.spread ≥ LEGS_SPREAD := hsig
    simp [updateThreatClassifier, h1, h2, h3, hs, hsig2]

/-- Witness for claim C6 at concrete inputs.  A cooldown of 1 decremented
by a hundredth suppresses a near reading (wall percept, no aggression); a
uniform four-sample ring with open cooldown is wall-classified and re-arms
the cooldown to COOLDOWN_DUR; a dispersed four-sample ring with open
cooldown triggers aggression the moment the cooldown is zero. -/
theorem wall_cooldown_witness :
    ((updateThreatClassifier CrocState.SLEEP ⟨1, 0, List.replicate 14 none, 0, 0⟩
        (some 1) (1/100)).2.1.enterAggression = false ∧
     (updateThreatClassifier CrocState.SLEEP ⟨1, 0, List.replicate 14 none, 0, 0⟩
        (some 1) (1/100)).2.2 = Percept.wall) ∧
    (updateThreatClassifier CrocState.SLEEP
        ⟨0, 0, [some 1, some 1, some 1, some 1] ++ List.replicate 10 none, 4, 4⟩
        (some 1) (1/100)).1.cooldown = COOLDOWN_DUR ∧
    (updateThreatClassifier CrocState.SLEEP
        ⟨0, 0, [some 1, some 0, some 1, some 0] ++ List.replicate 10 none, 4, 4⟩
        (some 1) (1/100)).2.1.enterAggression = true := by
  have hnear : nearB (some 1) = true := by
    norm_num [nearB, NEAR_DIST, WAKE_DIST_FROM_BOUNDARY]
  have hsB : scanStats (sampleStep
      ⟨0, 0, [some 1, some 1, some 1, some 1] ++ List.replicate 10 none, 4, 4⟩
      (some 1) (1/100)) = some ⟨0, 0⟩ := by
    have hstep : sampleStep
        ⟨0, 0, [some 1, some 1, some 1, some 1] ++ List.replicate 10 none, 4, 4⟩
        (some 1) (1/100)
        = ⟨0, 1/100, [some 1, some 1, some 1, some 1] ++ List.replicate 10 none, 4, 4⟩ := by
      norm_num [sampleStep, SAMPLE_DT]
    have hfold : statsFold ([some 1, some 1, some 1, some 1] ++ List.replicate 10 none) 4 4
        = ⟨4, 0, some 1, 1⟩ := by decide
    rw [hstep]
    simp only [scanStats, hfold]
    norm_num
  have hsC : scanStats (sampleStep
      ⟨0, 0, [some 1, some 0, some 1, some 0] ++ List.replicate 10 none, 4, 4⟩
      (some 1) (1/100)) = some ⟨0, 1⟩ := by
    have hstep : sampleStep
        ⟨0, 0, [some 1, some 0, some 1, some 0] ++ List.replicate 10 none, 4, 4⟩
        (some 1) (1/100)
        = ⟨0, 1/100, [some 1, some 0, some 1, some 0] ++ List.replicate 10 none, 4, 4⟩ := by
      norm_num [sampleStep, SAMPLE_DT]
    have hfold : statsFold ([some 1, some 0, some 1, some 0] ++ List.replicate 10 none) 4 4
        = ⟨4, 0, some 0, 1⟩ := by decide
    rw [hstep]
    simp only [scanStats, hfold]
    norm_num
  have hcoolA : (sampleStep ⟨1, 0, List.replicate 14 none, 0, 0⟩ (some 1) (1/100)).cooldown > 0 := by
    rw [sampleStep_cooldown]
    norm_num [jsMax]
  have hcoolB : ¬ (sampleStep
      ⟨0, 0, [some 1, some 1, some 1, some 1] ++ List.replicate 10 none, 4, 4⟩
      (some 1) (1/100)).cooldown > 0 := by
    rw [sampleStep_cooldown]
    norm_num
  have hcoolC : ¬ (sampleStep
      ⟨0, 0, [some 1, some 0, some 1, some 0] ++ List.replicate 10 none, 4, 4⟩
      (some 1) (1/100)).cooldown > 0 := by
    rw [sampleStep_cooldown]
    norm_num
  have hA := wall_cooldown_suppresses_retrigger CrocState.SLEEP
    ⟨1, 0, List.replicate 14 none, 0, 0⟩ (some 1) (1/100) ⟨0, 0⟩
  have hB := wall_cooldown_suppresses_retrigger CrocState.SLEEP
    ⟨0, 0, [some 1, some 1, some 1, some 1] ++ List.replicate 10 none, 4, 4⟩
    (some 1) (1/100) ⟨0, 0⟩
  have hC := wall_cooldown_suppresses_retrigger CrocState.SLEEP
    ⟨0, 0, [some 1, some 0, some 1, some 0] ++ List.replicate 10 none, 4, 4⟩
    (some 1) (1/100) ⟨0, 1⟩
  refine ⟨⟨?_, ?_⟩, ?_, ?_⟩
  · exact (hA.2.2.1 (by simp) hnear hcoolA).1
  · exact (hA.2.2.1 (by simp) hnear hcoolA).2.1
  · exact (hB.2.2.2.1 (by simp) hnear hcoolB hsB
      (by norm_num [legsSig, LEGS_DROPOUT, LEGS_SPREAD])).1
  · exact hC.2.2.2.2 (by simp) hnear hcoolC hsC
      (by norm_num [legsSig, LEGS_DROPOUT, LEGS_SPREAD])

/-! ## Claim C4: the scan classifier is a pure function of the buffer -/

/-- Claim C4: the full-scan classification path of the territory firmware
is deterministic in the raw scan buffer and the angle table: two scan
records agreeing on raw and angles (and arbitrary elsewhere) produce the
same filtered buffer, target distance, target bearing, wall flag and
percept. -/
theorem scan_classifier_deterministic (s1 s2 : ScanV1)
    (hraw : s1.raw = s2.raw) (hang : s1.angles = s2.angles) :
    (finishFullScan s1).1.filtered = (finishFullScan s2).1.filtered ∧
    (finishFullScan s1).1.targetCm = (finishFullScan s2).1.targetCm ∧
    (finishFullScan s1).1.targetThetaDeg = (finishFullScan s2).1.targetThetaDeg ∧
    (finishFullScan s1).1.targetIsWall = (finishFullScan s2).1.targetIsWall ∧
    (finishFullScan s1).2 = (finishFullScan s2).2 := by
  simp only [finishFullScan, classifyTargetFromScan]
  rw [hraw, hang]
  exact ⟨rfl, rfl, rfl, rfl, rfl⟩

/-- Witness for claim C4: two scan records sharing raw buffer and angle
table but differing in every hidden field classify identically. -/
theorem scan_classifier_deterministic_witness :
    (finishFullScan ⟨scanAnglesDeg, List.replicate 13 90, none, 300, 0, false,
        [false, false, false], 0, 300, [false, false, false, false, false], 0⟩).2
      = (finishFullScan ⟨scanAnglesDeg, List.replicate 13 90, some [], 55, -20, true,
        [true, true, true], 2, 12, [true, true, true, true, true], 3⟩).2 := by
  exact (scan_classifier_deterministic _ _ rfl rfl).2.2.2.2

/-! ## Claim C10: the servo never exceeds its mechanical limit -/

lemma clamp_mem (v lo hi : ℚ) (h : lo ≤ hi) :
    lo ≤ clamp v lo hi ∧ clamp v lo hi ≤ hi := by
  unfold clamp jsMax jsMin
  split_ifs <;> constructor <;> linarith

lemma servoUpdate_angle (s : ServoSt) (dt : ℚ) :
    (servoUpdate s dt).angle
      = s.angle + clamp (s.target - s.angle)
          (-(SERVO_MAX_SPEED_DPS * dt)) (SERVO_MAX_SPEED_DPS * dt) := rfl

lemma servoUpdate_target (s : ServoSt) (dt : ℚ) :
    (servoUpdate s dt).target = s.target := rfl

lemma servoUpdate_step_bound (s : ServoSt) (dt : ℚ) (h : 0 ≤ dt) :
    |(servoUpdate s dt).angle - s.angle| ≤ SERVO_MAX_SPEED_DPS * dt := by
  have hm : (0 : ℚ) ≤ SERVO_MAX_SPEED_DPS * dt :=
    mul_nonneg (by norm_num [SERVO_MAX_SPEED_DPS]) h
  have hc := clamp_mem (s.target - s.angle)
    (-(SERVO_MAX_SPEED_DPS * dt)) (SERVO_MAX_SPEED_DPS * dt) (by linarith)
  rw [servoUpdate_angle]
  rw [abs_le]
  constructor <;> linarith [hc.1, hc.2]

lemma servoUpdate_angle_bounds (s : ServoSt) (dt : ℚ) (h0 : 0 ≤ dt)
    (ha : |s.angle| ≤ SERVO_LIMIT_DEG) (ht : |s.target| ≤ SERVO_LIMIT_DEG) :
    |(servoUpdate s dt).angle| ≤ SERVO_LIMIT_DEG := by
  have hm : (0 : ℚ) ≤ SERVO_MAX_SPEED_DPS * dt :=
    mul_nonneg (by norm_num [SERVO_MAX_SPEED_DPS]) h0
  rw [abs_le] at ha ht ⊢
  rw [servoUpdate_angle]
  unfold clamp jsMax jsMin
  split_ifs <;> constructor <;> linarith [ha.1, ha.2, ht.1, ht.2]

lemma servoRun_limits (ops : List ServoOp) :
    ∀ s : ServoSt, |s.angle| ≤ SERVO_LIMIT_DEG → |s.target| ≤ SERVO_LIMIT_DEG →
      (∀ dt, ServoOp.upd dt ∈ ops → 0 ≤ dt) →
      |(servoRun s ops).angle| ≤ SERVO_LIMIT_DEG ∧
      |(servoRun s ops).target| ≤ SERVO_LIMIT_DEG := by
  induction ops with
  | nil => exact fun s ha ht _ => ⟨ha, ht⟩
  | cons op rest ih =>
    intro s ha ht hdt
    have hlim : -SERVO_LIMIT_DEG ≤ SERVO_LIMIT_DEG := by norm_num [SERVO_LIMIT_DEG]
    cases op with
    | setDeg d =>
      refine ih (setTargetDeg s d) ha ?_ (fun dt h => hdt dt (List.mem_cons_of_mem _ h))
      have hc := clamp_mem d (-SERVO_LIMIT_DEG) SERVO_LIMIT_DEG hlim
      rw [abs_le]
      exact ⟨hc.1, hc.2⟩
    | setRad x =>
      refine ih (setTargetRad s x) ha ?_ (fun dt h => hdt dt (List.mem_cons_of_mem _ h))
      have hc := clamp_mem x (-SERVO_LIMIT_DEG) SERVO_LIMIT_DEG hlim
      rw [abs_le]
      exact ⟨hc.1, hc.2⟩
    | upd dt =>
      have h0 : 0 ≤ dt := hdt dt (List.mem_cons_self _ _)
      refine ih (servoUpdate s dt) (servoUpdate_angle_bounds s dt h0 ha ht) ?_
        (fun d h => hdt d (List.mem_cons_of_mem _ h))
      rw [servoUpdate_target]
      exact ht

/-- Claim C10: starting from angle 0, along any sequence of target
requests and nonnegative update ticks, the servo target stays clamped to
the mechanical limit, the angle never leaves the limit, and each update
moves the angle by at most the maximum speed times dt. -/
theorem servo_respects_mechanical_limit (ops : List ServoOp)
    (hops : ∀ dt, ServoOp.upd dt ∈ ops → 0 ≤ dt) :
    |(servoRun servoInit ops).angle| ≤ SERVO_LIMIT_DEG ∧
    |(servoRun servoInit ops).target| ≤ SERVO_LIMIT_DEG ∧
    (∀ (s : ServoSt) (dt : ℚ), 0 ≤ dt →
      |(servoUpdate s dt).angle - s.angle| ≤ SERVO_MAX_SPEED_DPS * dt) := by
  have h := servoRun_limits ops servoInit
    (by norm_num [servoInit, SERVO_LIMIT_DEG])
    (by norm_num [servoInit, SERVO_LIMIT_DEG]) hops
  exact ⟨h.1, h.2, fun s dt h0 => servoUpdate_step_bound s dt h0⟩

/-- Witness for claim C10: an out-of-limit request of 1000 degrees
followed by updates and an out-of-limit negative radian request keeps
both target and angle within the limit. -/
theorem servo_limit_witness :
    |(servoRun servoInit
        [ServoOp.setDeg 1000, ServoOp.upd 1, ServoOp.setRad (-100), ServoOp.upd (1/2)]).angle|
      ≤ SERVO_LIMIT_DEG ∧
    |(servoRun servoInit
        [ServoOp.setDeg 1000, ServoOp.upd 1, ServoOp.setRad (-100), ServoOp.upd (1/2)]).target|
      ≤ SERVO_LIMIT_DEG := by
  have h := servo_respects_mechanical_limit
    [ServoOp.setDeg 1000, ServoOp.upd 1, ServoOp.setRad (-100), ServoOp.upd (1/2)]
    (by
      intro dt hmem
      simp only [List.mem_cons, List.not_mem_nil, or_false] at hmem
      rcases hmem with h1 | h1 | h1 | h1
      · cases h1
      · cases h1
        norm_num
      · cases h1
      · cases h1
        norm_num)
  exact ⟨h.1, h.2.1⟩

/-! ## Claim C9: drive clamps both PWM outputs into the unit interval -/

/-- Claim C9: for all forward and turn arguments, the drive helper of the
territory firmware writes wheel commands within [-1, 1] on both sides. -/
theorem drive_pwm_within_unit_range (f t : ℚ) :
    -1 ≤ (drive f t).1 ∧ (drive f t).1 ≤ 1 ∧ -1 ≤ (drive f t).2 ∧ (drive f t).2 ≤ 1 := by
  have h1 := clampLocal_mem (f - t) (-1) 1 (by norm_num)
  have h2 := clampLocal_mem (f + t) (-1) 1 (by norm_num)
  exact ⟨h1.1, h1.2, h2.1, h2.2⟩

/-! ## Claim C7: termination of the escape choreography -/

lemma terr_step_panic_stop (stT pt pc dt : ℚ) (rs : TerrState) (sn : Bool) :
    updateBehaviorTerr ⟨TerrState.PANIC, stT, ⟨PanicPhase.STOP, pt, pc⟩, rs⟩ dt false sn
      = if pt + dt ≥ 1/20
        then ⟨TerrState.PANIC, stT + dt, ⟨PanicPhase.REVERSE, 0, pc⟩, rs⟩
        else ⟨TerrState.PANIC, stT + dt, ⟨PanicPhase.STOP, pt + dt, pc⟩, rs⟩ := by
  simp only [updateBehaviorTerr, enterTerr]
  rw [if_neg (by simp)]

lemma terr_step_panic_rev (stT pt pc dt : ℚ) (rs : TerrState) (sn : Bool) :
    updateBehaviorTerr ⟨TerrState.PANIC, stT, ⟨PanicPhase.REVERSE, pt, pc⟩, rs⟩ dt false sn
      = if pt + dt ≥ 2/5
        then ⟨TerrState.PANIC, stT + dt, ⟨PanicPhase.TURN, 0, pc⟩, rs⟩
        else ⟨TerrState.PANIC, stT + dt, ⟨PanicPhase.REVERSE, pt + dt, pc⟩, rs⟩ := by
  simp only [updateBehaviorTerr, enterTerr]
  rw [if_neg (by simp)]

lemma terr_step_panic_turn (stT pt pc dt : ℚ) (rs : TerrState) (sn : Bool) :
    updateBehaviorTerr ⟨TerrState.PANIC, stT, ⟨PanicPhase.TURN, pt, pc⟩, rs⟩ dt false sn
      = if pt + dt ≥ 1/2
        then ⟨TerrState.PANIC, stT + dt, ⟨PanicPhase.COOLDOWN, 0, 2⟩, rs⟩
        else ⟨TerrState.PANIC, stT + dt, ⟨PanicPhase.TURN, pt + dt, pc⟩, rs⟩ := by
  simp only [updateBehaviorTerr, enterTerr]
  rw [if_neg (by simp)]

lemma terr_step_panic_cooldown (stT pt pc dt : ℚ) (rs : TerrState) (sn : Bool) :
    updateBehaviorTerr ⟨TerrState.PANIC, stT, ⟨PanicPhase.COOLDOWN, pt, pc⟩, rs⟩ dt false sn
      = if pc - dt ≤ 0
        then ⟨TerrState.PATROL, 0, ⟨PanicPhase.COOLDOWN, pt + dt, pc - dt⟩, rs⟩
        else ⟨TerrState.PANIC, stT + dt, ⟨PanicPhase.COOLDOWN, pt + dt, pc - dt⟩, rs⟩ := by
  simp only [updateBehaviorTerr, enterTerr]
  rw [if_neg (by simp)]

lemma terr_step_recover (stT dt : ℚ) (p : PanicSt) (rs : TerrState) (sn : Bool) :
    updateBehaviorTerr ⟨TerrState.RECOVER, stT, p, rs⟩ dt false sn
      = if stT + dt ≥ 2/5
        then ⟨TerrState.PATROL, 0, p, rs⟩
        else ⟨TerrState.RECOVER, stT + dt, p, rs⟩ := by
  simp only [updateBehaviorTerr, enterTerr]
  rw [if_neg (by simp)]

lemma escMeasure_nonneg (maxTick : ℚ) (hm : 0 ≤ maxTick) (r : TerrSt) (h : escInv r) :
    0 ≤ escMeasure maxTick r := by
  rcases h with ⟨hst, hph⟩ | ⟨hst, h1, h2⟩
  · rcases hph with ⟨hp, h1, h2⟩ | ⟨hp, h1, h2⟩ | ⟨hp, h1, h2⟩ | ⟨hp, h1, h2⟩ <;>
      simp only [escMeasure, hst, hp] <;> linarith
  · simp only [escMeasure, hst]
    linarith

/-- One escape tick without line detection either reaches PATROL or
preserves the invariant while consuming the full tick from the measure. -/
lemma esc_step (maxTick dt : ℚ) (sn : Bool) (r : TerrSt)
    (hI : escInv r) (h0 : 0 < dt) (hm : dt ≤ maxTick) :
    (updateBehaviorTerr r dt false sn).state = TerrState.PATROL ∨
      (escInv (updateBehaviorTerr r dt false sn) ∧
       escMeasure maxTick (updateBehaviorTerr r dt false sn)
         ≤ escMeasure maxTick r - dt) := by
  obtain ⟨st, stT, ⟨ph, pt, pc⟩, rs⟩ := r
  rcases hI with ⟨hst, hph⟩ | ⟨hst, h1, h2⟩
  · simp only at hst
    subst hst
    rcases hph with ⟨hp, h1, h2⟩ | ⟨hp, h1, h2⟩ | ⟨hp, h1, h2⟩ | ⟨hp, h1, h2⟩ <;>
        simp only at hp <;> subst hp <;> simp only at h1 h2
    · rw [terr_step_panic_stop]
      split_ifs with hcross
      · right
        refine ⟨Or.inl ⟨rfl, Or.inr (Or.inl ⟨rfl, ?_, ?_⟩)⟩, ?_⟩ <;>
          simp only [escMeasure] <;> linarith
      · right
        refine ⟨Or.inl ⟨rfl, Or.inl ⟨rfl, ?_, ?_⟩⟩, ?_⟩ <;>
          simp only [escMeasure] <;> linarith [not_le.mp hcross]
    · rw [terr_step_panic_rev]
      split_ifs with hcross
      · right
        refine ⟨Or.inl ⟨rfl, Or.inr (Or.inr (Or.inl ⟨rfl, ?_, ?_⟩))⟩, ?_⟩ <;>
          simp only [escMeasure] <;> linarith
      · right
        refine ⟨Or.inl ⟨rfl, Or.inr (Or.inl ⟨rfl, ?_, ?_⟩)⟩, ?_⟩ <;>
          simp only [escMeasure] <;> linarith [not_le.mp hcross]
    · rw [terr_step_panic_turn]
      split_ifs with hcross
      · right
        refine ⟨Or.inl ⟨rfl, Or.inr (Or.inr (Or.inr ⟨rfl, ?_, ?_⟩))⟩, ?_⟩ <;>
          simp only [escMeasure] <;> linarith
      · right
        refine ⟨Or.inl ⟨rfl, Or.inr (Or.inr (Or.inl ⟨rfl, ?_, ?_⟩))⟩, ?_⟩ <;>
          simp only [escMeasure] <;> linarith [not_le.mp hcross]
    · rw [terr_step_panic_cooldown]
      split_ifs with hdone
      · left
        rfl
      · right
        refine ⟨Or.inl ⟨rfl, Or.inr (Or.inr (Or.inr ⟨rfl, ?_, ?_⟩))⟩, ?_⟩ <;>
          simp only [escMeasure] <;> linarith [not_le.mp hdone]
  · simp only at hst
    subst hst
    simp only at h1 h2
    rw [terr_step_recover]
    split_ifs with hcross
    · left
      rfl
    · right
      refine ⟨Or.inr ⟨rfl, ?_, ?_⟩, ?_⟩ <;>
        simp only [escMeasure] <;> linarith [not_le.mp hcross]

lemma terr_step_panic_line (stT dt : ℚ) (p : PanicSt) (rs : TerrState) (sn : Bool) :
    updateBehaviorTerr ⟨TerrState.PANIC, stT, p, rs⟩ dt true sn
      = ⟨TerrState.LINE_AVOID, 0, p, TerrState.PANIC⟩ := by
  simp only [updateBehaviorTerr, enterTerr]
  rw [if_pos (by simp)]
  rw [if_pos (by norm_num : (0 : ℚ) < 1/50)]

lemma terr_step_lineavoid (stT dt : ℚ) (p : PanicSt) (rs : TerrState) (sn : Bool)
    (h : stT + dt < 157/100) :
    updateBehaviorTerr ⟨TerrState.LINE_AVOID, stT, p, rs⟩ dt false sn
      = ⟨TerrState.LINE_AVOID, stT + dt, p, rs⟩ := by
  simp only [updateBehaviorTerr, enterTerr]
  rw [if_neg (by simp)]
  split_ifs <;> rfl

lemma reachesPatrol_of_patrol (r : TerrSt) (h : r.state = TerrState.PATROL)
    (ticks : List TerrTick) : reachesPatrol r ticks = true := by
  cases ticks <;> simp [reachesPatrol, h]

/-- The measure argument: whenever the invariant holds and the ticks are
positive, line-free and bounded by maxTick, a run of total time above the
measure reaches PATROL. -/
lemma esc_reach_aux (maxTick : ℚ) (hm0 : 0 ≤ maxTick) :
    ∀ (ticks : List TerrTick) (r : TerrSt), escInv r →
      (∀ tk ∈ ticks, 0 < tk.dt ∧ tk.dt ≤ maxTick ∧ tk.line = false) →
      escMeasure maxTick r < totalTime ticks →
      reachesPatrol r ticks = true := by
  intro ticks
  induction ticks with
  | nil =>
    intro r hI _ hsum
    exfalso
    have hge := escMeasure_nonneg maxTick hm0 r hI
    simp [totalTime] at hsum
    linarith
  | cons tk rest ih =>
    intro r hI hticks hsum
    have htk := hticks tk (List.mem_cons_self _ _)
    have hstep := esc_step maxTick tk.dt tk.stillNear r hI htk.1 htk.2.1
    have hun : reachesPatrol r (tk :: rest)
        = (decide (r.state = TerrState.PATROL)
            || reachesPatrol (updateBehaviorTerr r tk.dt tk.line tk.stillNear) rest) := rfl
    rw [hun, htk.2.2, Bool.or_eq_true]
    right
    have hsum2 : totalTime (tk :: rest) = tk.dt + totalTime rest := by
      simp [totalTime]
    rcases hstep with hP | ⟨hI2, hdec⟩
    · exact reachesPatrol_of_patrol _ hP rest
    · refine ih _ hI2 (fun t ht => hticks t (List.mem_cons_of_mem _ ht)) ?_
      rw [hsum2] at hsum
      linarith

/-- Claim C7 (amended): from entry into PANIC, along any sequence of
positive line-free ticks each at most maxTick long, the robot reaches
PATROL once the total time exceeds the sum of the PANIC phase durations
(0.05 + 0.4 + 0.5 + 2.0) plus three maximal ticks (one per phase
boundary whose overshoot the code discards); from entry into RECOVER it
reaches PATROL once the total exceeds the 0.4 s dwell.  The line sensor
must stay quiet: a line detection diverts the escape into LINE_AVOID. -/
theorem escape_choreography_terminates (maxTick : ℚ) (ticks : List TerrTick)
    (p : PanicSt) (rs : TerrState) (hm : 0 < maxTick)
    (hticks : ∀ tk ∈ ticks, 0 < tk.dt ∧ tk.dt ≤ maxTick ∧ tk.line = false) :
    (totalTime ticks > (1/20 + 2/5 + 1/2 + 2) + 3 * maxTick →
      reachesPatrol panicEntry ticks = true) ∧
    (totalTime ticks > 2/5 →
      reachesPatrol ⟨TerrState.RECOVER, 0, p, rs⟩ ticks = true) := by
  constructor
  · intro hsum
    refine esc_reach_aux maxTick (le_of_lt hm) ticks panicEntry ?_ hticks ?_
    · exact Or.inl ⟨rfl, Or.inl ⟨rfl, le_refl 0, by norm_num [panicEntry]⟩⟩
    · simp only [escMeasure, panicEntry]
      linarith
  · intro hsum
    refine esc_reach_aux maxTick (le_of_lt hm) ticks _ ?_ hticks ?_
    · exact Or.inr ⟨rfl, le_refl 0, by norm_num⟩
    · simp only [escMeasure]
      linarith

/-- Witness for the amended claim C7: six one-second line-free ticks
(total 6 s, above 2.95 s plus three one-second ticks) drive both the
PANIC entry state and a RECOVER state into PATROL. -/
theorem escape_terminates_witness :
    reachesPatrol panicEntry ticksC = true ∧
    reachesPatrol ⟨TerrState.RECOVER, 0, ⟨PanicPhase.STOP, 0, 0⟩, TerrState.PATROL⟩ ticksC
      = true := by
  have hticks : ∀ tk ∈ ticksC, 0 < tk.dt ∧ tk.dt ≤ 1 ∧ tk.line = false := by
    intro tk h
    simp only [ticksC, List.mem_replicate] at h
    rw [h.2]
    norm_num
  have h := escape_choreography_terminates 1 ticksC ⟨PanicPhase.STOP, 0, 0⟩ TerrState.PATROL
    (by norm_num) hticks
  refine ⟨h.1 ?_, h.2 ?_⟩ <;> norm_num [totalTime, ticksC, List.replicate]

/-- Counterexample to claim C7 as stated.  First run: four one-second
ticks with no line detection; the total time 4 s exceeds the sum of the
phase durations plus one tick (3.95 s), yet the robot is still in PANIC,
because each phase boundary discards the overshoot of the tick that
crossed it.  Second run: nine half-second ticks with one line detection
late in the cooldown phase; the total 4.5 s exceeds the claimed bound
(3.45 s), yet the robot sits in LINE_AVOID, because the line sensor
diverted the escape. -/
theorem panic_escape_exceeds_one_tick_bound :
    ((∀ tk ∈ ticksA, 0 < tk.dt ∧ tk.dt ≤ 1) ∧
     totalTime ticksA > (1/20 + 2/5 + 1/2 + 2) + 1 ∧
     reachesPatrol panicEntry ticksA = false) ∧
    ((∀ tk ∈ ticksB, 0 < tk.dt ∧ tk.dt ≤ 1/2) ∧
     totalTime ticksB > (1/20 + 2/5 + 1/2 + 2) + 1/2 ∧
     reachesPatrol panicEntry ticksB = false) := by
  refine ⟨⟨?_, ?_, ?_⟩, ⟨?_, ?_, ?_⟩⟩
  · intro tk h
    simp only [ticksA, List.mem_replicate] at h
    rw [h.2]
    norm_num
  · norm_num [totalTime, ticksA, List.replicate]
  · norm_num [ticksA, List.replicate, reachesPatrol, panicEntry,
      terr_step_panic_stop, terr_step_panic_rev, terr_step_panic_turn,
      terr_step_panic_cooldown]
    all_goals decide
  · intro tk h
    simp only [ticksB, List.mem_cons, List.not_mem_nil, or_false] at h
    rcases h with h | h | h | h | h | h | h | h | h <;> rw [h] <;> norm_num
  · norm_num [totalTime, ticksB]
  · norm_num [ticksB, reachesPatrol, panicEntry,
      terr_step_panic_stop, terr_step_panic_rev, terr_step_panic_turn,
      terr_step_panic_cooldown, terr_step_panic_line, terr_step_lineavoid]
    all_goals decide

/-! ## Claim C8: cone semantics of one ultrasonic ping -/

lemma rayStep_as_fold {α : Type} (legT : ℚ → Dist) (obsT : α → ℚ → Dist)
    (obstacles : List α) (acc : Dist) (off : ℚ) :
    rayStep legT obsT obstacles acc off
      = (legT off :: obstacles.map (fun o => obsT o off)).foldl optMinD acc := by
  simp [rayStep, List.foldl_cons, List.foldl_map]

lemma pingBest_foldl_eq {α : Type} (legT : ℚ → Dist) (obsT : α → ℚ → Dist)
    (obstacles : List α) :
    ∀ (offsets : List ℚ) (acc : Dist),
      offsets.foldl (rayStep legT obsT obstacles) acc
        = (coneCandidates legT obsT obstacles offsets).foldl optMinD acc := by
  intro offsets
  induction offsets with
  | nil =>
    intro acc
    simp [coneCandidates]
  | cons off rest ih =>
    intro acc
    rw [List.foldl_cons, ih]
    have hc : coneCandidates legT obsT obstacles (off :: rest)
        = (legT off :: obstacles.map (fun o => obsT o off))
            ++ coneCandidates legT obsT obstacles rest := by
      simp [coneCandidates]
    rw [hc, List.foldl_append, rayStep_as_fold]

/-- Claim C8: one ping samples exactly five rays spread across the cone,
the running best of the nested loops equals the minimum over the list of
every (ray, target) intersection candidate (legs and obstacles), and the
noise enters only after that minimum: a reported reading is max 0 of the
minimum plus the noise. -/
theorem ping_cone_reports_min_before_noise {α : Type}
    (legT : ℚ → Dist) (obsT : α → ℚ → Dist) (obstacles : List α)
    (halfFov noise : ℚ) :
    (rayOffsets halfFov).length = 5 ∧
    pingBest legT obsT obstacles (rayOffsets halfFov)
      = distMin (coneCandidates legT obsT obstacles (rayOffsets halfFov)) ∧
    (∀ b : ℚ, pingBest legT obsT obstacles (rayOffsets halfFov) = some b →
      b ≤ ULTRASONIC_RANGE →
      pingReport (pingBest legT obsT obstacles (rayOffsets halfFov)) noise
        = some (jsMax 0 (b + noise))) := by
  refine ⟨rfl, pingBest_foldl_eq legT obsT obstacles (rayOffsets halfFov) none, ?_⟩
  intro b hb hble
  rw [hb, pingReport_some, if_pos hble]

/-- Witness for claim C8: a cone whose centre ray alone hits at 2 m
reports 2 m plus the noise. -/
theorem ping_cone_witness :
    pingReport (pingBest (fun off : ℚ => if off = 0 then some 2 else none)
        (fun (_ : Unit) _ => none) [] (rayOffsets 1)) (1/10)
      = some (jsMax 0 (2 + 1/10)) := by
  have h := ping_cone_reports_min_before_noise
    (fun off : ℚ => if off = 0 then some 2 else none) (fun (_ : Unit) _ => none) [] 1 (1/10)
  exact h.2.2 2 (by norm_num [pingBest, rayOffsets, rayStep, optMinD, distLt])
    (by norm_num [ULTRASONIC_RANGE])

end RobotSim




